import Mathlib

/-!
Shallow embedding of `src/tree.cc` (a directory-tree visualizer) and proofs
about its traversal, counting, rendering and command-line behaviour.

The filesystem is modelled as a tree of entries.  Each entry carries the
results the `std::filesystem` probes return for it:

  * `isDir`      — what `fs::is_directory(entry, err)` returns (follows
                   symlinks, `false` when the probe fails);
  * `isSymlink`  — what `fs::is_symlink(entry, err)` returns;
  * `canonical`  — what `fs::canonical(entry, err)` returns (empty string
                   when resolution fails, matching the source's fallback);
  * `denied`     — whether enumerating this entry's own children fails with
                   `EACCES` (the dry-run `fs::directory_iterator(entry, err)`
                   probe at tree.cc:95 sets `err` to `EACCES` exactly then);
  * `children`   — the entries a successful `fs::directory_iterator` yields,
                   in listing order.

Machine integers: the recursion level and `max_depth` are `std::int32_t`; the
program clamps `max_depth` to at least 1 and the level stays within
`[1, max_depth]`, so no overflow is reachable and `Int` models them exactly.
The totals are `std::size_t` counters incremented by child counts; they are
modelled by `Nat`.
-/

namespace CxxTree

/-- A filesystem entry as observed by the program's probes. -/
inductive FSTree : Type where
  | node (name : String) (isDir : Bool) (isSymlink : Bool)
         (canonical : String) (denied : Bool) (children : List FSTree) : FSTree

/-- The entry's name (final path component), as printed. -/
def FSTree.name : FSTree → String
  | .node n _ _ _ _ _ => n

/-- Result of `fs::is_directory(entry, err)` for this entry. -/
def FSTree.isDir : FSTree → Bool
  | .node _ d _ _ _ _ => d

/-- Result of `fs::is_symlink(entry, err)` for this entry. -/
def FSTree.isSymlink : FSTree → Bool
  | .node _ _ s _ _ _ => s

/-- Result of `fs::canonical(entry, err)` for this entry (used for symlinks). -/
def FSTree.canonical : FSTree → String
  | .node _ _ _ c _ _ => c

/-- Whether enumerating this entry's children fails with `EACCES`. -/
def FSTree.denied : FSTree → Bool
  | .node _ _ _ _ dn _ => dn

/-- The children a successful enumeration yields, in listing order. -/
def FSTree.children : FSTree → List FSTree
  | .node _ _ _ _ _ cs => cs

/-- What `fs::directory_iterator(directory, err)` yields: the children in
listing order, or nothing when enumeration fails with a permission error. -/
def childrenOf (t : FSTree) : List FSTree :=
  if t.denied then [] else t.children

/-- tree.cc:34-44, `number_of_directories_in_directory`: count of enumerated
children for which `fs::is_directory` holds. -/
def number_of_directories_in_directory (t : FSTree) : Nat :=
  (childrenOf t).countP (fun c => c.isDir)

/-- tree.cc:48-58, `number_of_files_in_directory`: count of enumerated
children for which `fs::is_directory` does not hold. -/
def number_of_files_in_directory (t : FSTree) : Nat :=
  (childrenOf t).countP (fun c => !c.isDir)

/-- The ESC character starting every ANSI escape sequence (`\x1B`/`\033`). -/
def esc : String := "\x1B"

/-- Directory-color span: `\x1B[94m` ... `\033[0m` (tree.cc formats). -/
def blueSpan (s : String) : String := esc ++ "[94m" ++ s ++ esc ++ "[0m"

/-- Symlink-target-color span: `\x1B[92m` ... `\033[0m` (tree.cc formats). -/
def greenSpan (s : String) : String := esc ++ "[92m" ++ s ++ esc ++ "[0m"

/-- tree.cc:114: branch glyph for the entry with 1-indexed running counter
`ec` out of `total` = directory-children + file-children of the parent. -/
def leftGlyph (ec total : Nat) : String :=
  if ec == total then "└──" else "├──"

/-- tree.cc:115: continuation glyph appended to the indentation of a
recursive call for the entry with running counter `ec` out of `total`. -/
def rightGlyph (ec total : Nat) : String :=
  if ec == total then "    " else "│   "

/-- tree.cc:100: `access_denied` as observed for an entry.  For a directory
entry the dry-run probe at line 95 has just set `err`, so the flag equals the
entry's `denied` attribute.  For a non-directory entry the flag comes from a
stale `err`, but it is observably irrelevant there: the chosen format string
(`"%s%s %s\n"`) renders identically and the recursion guard already requires
`is_directory`.  Hence `access_denied` is modelled as `isDir && denied`. -/
def accessDenied (c : FSTree) : Bool := c.isDir && c.denied

/-- tree.cc:126: the recursion guard
`is_directory and not is_symlink and not access_denied and level != max_depth`. -/
def shouldRecurse (md level : Int) (c : FSTree) : Bool :=
  c.isDir && !c.isSymlink && !accessDenied c && !(level == md)

/-- tree.cc:102-121: the single line printed for entry `c`, assembled from
the selected format string and the `printf` arguments.  `segment` is the
accumulated indentation, `left` the branch glyph, `level`/`md` the current
recursion level and `max_depth` (which select the denied format). -/
def renderLine (md level : Int) (segment left : String) (c : FSTree) : String :=
  if c.isSymlink then
    if c.isDir then
      segment ++ left ++ " " ++ blueSpan c.name ++ " -> " ++ greenSpan c.canonical ++ "\n"
    else
      segment ++ left ++ " " ++ c.name ++ " -> " ++ greenSpan c.canonical ++ "\n"
  else if c.isDir then
    if accessDenied c && !(level == md) then
      segment ++ left ++ " " ++ blueSpan c.name ++ " [access denied]\n"
    else
      segment ++ left ++ " " ++ blueSpan c.name ++ "\n"
  else
    segment ++ left ++ " " ++ c.name ++ "\n"

mutual

/-- tree.cc:61-131, `traverse`: renders the children of `directory` and
accumulates the global totals.  Returns `(printed lines, added to
total_directories, added to total_files)`; the totals are returned
rather than kept in globals, addition being associative and commutative,
and are incremented by this directory's own child counts before any child
is rendered (tree.cc:73-74). -/
def traverse (md : Int) (t : FSTree) (level : Int) (segment : String) :
    List String × Nat × Nat :=
  let n_directories := number_of_directories_in_directory t
  let n_files := number_of_files_in_directory t
  let body :=
    match t with
    | .node _ _ _ _ true _ => ([], 0, 0)
    | .node _ _ _ _ false cs =>
      walkChildren md level segment (n_directories + n_files) 0 cs
  (body.1, n_directories + body.2.1, n_files + body.2.2)

/-- tree.cc:78-130, the `for` loop of `traverse` over the enumerated
children, carrying the running `entries_count` (`count`; the loop body uses
`++entries_count`, i.e. `count + 1`) and the parent's
`n_directories + n_files` (`total`). -/
def walkChildren (md : Int) (level : Int) (segment : String) (total : Nat)
    (count : Nat) : List FSTree → List String × Nat × Nat
  | [] => ([], 0, 0)
  | c :: rest =>
    let ec := count + 1
    let line := renderLine md level segment (leftGlyph ec total) c
    let sub :=
      if shouldRecurse md level c then
        traverse md c (1 + level) (segment ++ rightGlyph ec total)
      else ([], 0, 0)
    let restRes := walkChildren md level segment total ec rest
    (line :: (sub.1 ++ restRes.1), sub.2.1 + restRes.2.1, sub.2.2 + restRes.2.2)

end

mutual

/-- The directories a call `traverse md t level _` visits (i.e. on which
`traverse` itself is invoked): `t` plus, recursively, every child the guard
at tree.cc:126 recurses into.  As in `traverse`, a failed enumeration yields
no children to recurse into. -/
def visitedDirs (md : Int) (t : FSTree) (level : Int) : List FSTree :=
  let rest :=
    match t with
    | .node _ _ _ _ true _ => []
    | .node _ _ _ _ false cs => visitedOfChildren md level cs
  t :: rest

/-- The directories visited through the children in `cs` of a directory
being traversed at `level`. -/
def visitedOfChildren (md level : Int) : List FSTree → List FSTree
  | [] => []
  | c :: restCs =>
    (if shouldRecurse md level c then visitedDirs md c (1 + level) else [])
      ++ visitedOfChildren md level restCs

end

/-- The invocations of `traverse` reachable from the top-level call on
`root` at level 1 (as `main` makes it at tree.cc:162): one `step` per
recursive call the guard at tree.cc:126 allows. -/
inductive Reaches (md : Int) (root : FSTree) : FSTree → Int → Prop where
  | start : Reaches md root root 1
  | step {u : FSTree} {l : Int} {c : FSTree} :
      Reaches md root u l → c ∈ childrenOf u → shouldRecurse md l c = true →
      Reaches md root c (1 + l)

/-- Example fixture: a plain file. -/
def exFile : FSTree := .node "a.txt" false false "" false []

/-- Example fixture: a readable subdirectory holding one file. -/
def exSub : FSTree := .node "sub" true false "" false [exFile]

/-- Example fixture: a symlink whose target is a directory. -/
def exLink : FSTree := .node "link" true true "/target" false [exFile]

/-- Example fixture: a directory whose enumeration fails with `EACCES`,
holding one file. -/
def exDenied : FSTree := .node "locked" true false "" true [exFile]

/-- Example fixture: a readable root directory. -/
def exRoot : FSTree := .node "root" true false "" false [exSub, exFile]

/-- Counterexample fixture for C3: a root whose single child is a denied
directory (`exDenied`) that, behind its unreadable listing, holds one file. -/
def deniedRoot : FSTree := .node "root" true false "" false [exDenied]

/-- The characters C `isspace` accepts, skipped by `atoi` before the number. -/
def isSpaceChar (c : Char) : Bool :=
  c == ' ' || c == '\t' || c == '\n' || c == Char.ofNat 11 || c == Char.ofNat 12
    || c == '\r'

/-- The digit-consuming loop of C `atoi`: reads decimal digits until the
first non-digit, accumulating the value. -/
def digitsVal : List Char → Int → Int
  | [], acc => acc
  | c :: cs, acc =>
    if c.isDigit then digitsVal cs (10 * acc + (c.toNat - 48)) else acc

/-- C `atoi` as called at tree.cc:152: skip leading whitespace, read an
optional sign, then leading decimal digits; a string with no leading
numeric part yields 0.  Overflow is undefined behaviour in C and is not
modelled (the program only clamps the result against 1). -/
def atoi (s : String) : Int :=
  match s.data.dropWhile isSpaceChar with
  | [] => 0
  | c :: cs =>
    if c == '-' then - digitsVal cs 0
    else if c == '+' then digitsVal cs 0
    else digitsVal (c :: cs) 0

/-- tree.cc:14 and tree.cc:150-154: the depth bound used for traversal.
`argv` is the full argument vector (`argv[0]` the program name, so
`argc = argv.length`); `max_depth` starts at 1 and is overwritten only when
`3 <= argc`, by `atoi(argv[2])` clamped below by 1. -/
def effectiveMaxDepth (argv : List String) : Int :=
  if 3 ≤ argv.length then
    let v := atoi ((argv.get? 2).getD "")
    if v < 1 then 1 else v
  else 1

/-- The startup status of the root path: the outcome of the `fs::exists`
and `fs::is_directory` probes at tree.cc:141 and tree.cc:145, together with
the observed tree when the root is a directory. -/
inductive RootStatus : Type where
  | missing : RootStatus
  | notDirectory : RootStatus
  | isDirectory (t : FSTree) : RootStatus

/-- `EXIT_SUCCESS` on this platform. -/
def EXIT_SUCCESS : Int := 0

/-- `EXIT_FAILURE` on this platform, as passed to `std::exit` by `fatal`. -/
def EXIT_FAILURE : Int := 1

/-- An ASCII apostrophe (the quote around the path in the error message). -/
def quoteChar : String := String.mk [Char.ofNat 39]

/-- tree.cc:165-167: the final statistics line, with singular/plural chosen
by comparing each count with 1. -/
def summaryLine (d f : Nat) : String :=
  "\n" ++ toString d ++ " " ++ (if d == 1 then "directory" else "directories")
    ++ ", " ++ toString f ++ " " ++ (if f == 1 then "file" else "files") ++ "\n"

/-- tree.cc:133-170, `main`: given the argument vector (`argv[0]` is the
program name) and the probed status of the root path, returns the exit
status, the stdout lines (one per `printf` call) and the stderr lines.
The root is `argv[1]`, defaulting to "." (tree.cc:137); the two fatal
checks run before anything is written to stdout; on success the root path
line is printed, then the traversal (level 1, empty indentation), then the
statistics. -/
def runMain (argv : List String) (status : RootStatus) :
    Int × List String × List String :=
  let directory := (argv.get? 1).getD "."
  match status with
  | .missing =>
    (EXIT_FAILURE, [],
      ["cxx-tree: cannot access " ++ quoteChar ++ directory ++ quoteChar
        ++ ": No such directory\n"])
  | .notDirectory =>
    (EXIT_FAILURE, [], ["cxx-tree: " ++ directory ++ ": Not a directory\n"])
  | .isDirectory t =>
    let res := traverse (effectiveMaxDepth argv) t 1 ""
    (EXIT_SUCCESS,
      (directory ++ "\n") :: (res.1 ++ [summaryLine res.2.1 res.2.2]), [])

/-- A member of the children list is structurally smaller than the entry. -/
theorem sizeOf_lt_of_mem_children {c t : FSTree} (hc : c ∈ t.children) :
    sizeOf c < sizeOf t := by
  cases t with
  | node n d s cn dn cs =>
    have h1 := List.sizeOf_lt_of_mem hc
    simp only [FSTree.children] at h1
    have h2 : sizeOf cs ≤ sizeOf (FSTree.node n d s cn dn cs) := by
      simp_arith
    omega

/-- Strong induction over the filesystem tree: to prove a property of every
entry it suffices to prove it assuming it for all children. -/
theorem FSTree.strong_induction {motive : FSTree → Prop}
    (h : ∀ t, (∀ c, c ∈ t.children → motive c) → motive t) (t : FSTree) :
    motive t :=
  h t (fun c hc => FSTree.strong_induction h c)
termination_by sizeOf t
decreasing_by exact sizeOf_lt_of_mem_children hc

/-- Members of the enumeration are children of the entry. -/
theorem mem_children_of_mem_childrenOf {c t : FSTree} (h : c ∈ childrenOf t) :
    c ∈ t.children := by
  unfold childrenOf at h
  split at h
  · simp at h
  · exact h

/-- `traverse` enumerates exactly `childrenOf t`: the match on the `denied`
flag inside `traverse` (a failed `fs::directory_iterator` yields no entries,
so the loop body never runs) is the same case split `childrenOf` makes. -/
theorem traverse_eq (md : Int) (t : FSTree) (level : Int) (segment : String) :
    traverse md t level segment =
      (let n_directories := number_of_directories_in_directory t
       let n_files := number_of_files_in_directory t
       let body := walkChildren md level segment (n_directories + n_files) 0 (childrenOf t)
       (body.1, n_directories + body.2.1, n_files + body.2.2)) := by
  cases t with
  | node n d s cn dn cs => cases dn <;> rfl

/-- `visitedDirs` in terms of `childrenOf`. -/
theorem visitedDirs_eq (md : Int) (t : FSTree) (level : Int) :
    visitedDirs md t level = t :: visitedOfChildren md level (childrenOf t) := by
  cases t with
  | node n d s cn dn cs => cases dn <;> rfl

/-- The two counting predicates of tree.cc:41 and tree.cc:55 partition any
list of entries. -/
theorem countP_isDir_partition (cs : List FSTree) :
    cs.countP (fun c => c.isDir) + cs.countP (fun c => !c.isDir) = cs.length := by
  induction cs with
  | nil => simp
  | cons c rest ih =>
    cases hd : c.isDir <;> simp [List.countP_cons, hd] <;> omega

/-- Claim C6: the two count operations partition the enumerated children of
any visited directory at the class boundary — each child is classified as
exactly one of directory-child (`fs::is_directory`) or file-child (its
negation) — so their sum is the number of enumerated children. -/
theorem counts_partition_children (t : FSTree) :
    (∀ c ∈ childrenOf t, (c.isDir = true ↔ ¬((!c.isDir) = true))) ∧
    number_of_directories_in_directory t + number_of_files_in_directory t
      = (childrenOf t).length := by
  constructor
  · intro c _
    cases c.isDir <;> simp
  · simpa [number_of_directories_in_directory, number_of_files_in_directory]
      using countP_isDir_partition (childrenOf t)

/-- Witness for C6: the partition property evaluated on a concrete
directory with one subdirectory and one file. -/
theorem counts_partition_children_witness :
    number_of_directories_in_directory exRoot + number_of_files_in_directory exRoot
      = (childrenOf exRoot).length :=
  (counts_partition_children exRoot).2

/-- The running totals accumulated by the children loop equal the summed
per-directory counts over the directories visited through those children. -/
theorem walkChildren_totals (md level : Int) (segment : String) (total count : Nat)
    (cs : List FSTree)
    (ih : ∀ c ∈ cs, ∀ lvl seg,
      (traverse md c lvl seg).2.1
          = ((visitedDirs md c lvl).map number_of_directories_in_directory).sum ∧
      (traverse md c lvl seg).2.2
          = ((visitedDirs md c lvl).map number_of_files_in_directory).sum) :
    (walkChildren md level segment total count cs).2.1
        = ((visitedOfChildren md level cs).map number_of_directories_in_directory).sum ∧
    (walkChildren md level segment total count cs).2.2
        = ((visitedOfChildren md level cs).map number_of_files_in_directory).sum := by
  revert ih
  induction cs generalizing count with
  | nil =>
    intro ih
    simp [walkChildren, visitedOfChildren]
  | cons c rest ihl =>
    intro ih
    have hrest := ihl (count + 1) (fun x hx => ih x (List.mem_cons_of_mem _ hx))
    have hc := ih c (List.mem_cons_self _ _) (1 + level)
      (segment ++ rightGlyph (count + 1) total)
    cases h : shouldRecurse md level c with
    | true =>
      simp [walkChildren, visitedOfChildren, h, hrest.1, hrest.2, hc.1, hc.2]
    | false =>
      simp [walkChildren, visitedOfChildren, h, hrest.1, hrest.2]

/-- Claim C1: the totals accumulated by a run of `traverse` equal,
respectively, the sum over every visited directory (the argument plus every
directory recursed into) of that directory's immediate directory-children
and file-children counts, each directory contributing exactly once. -/
theorem totals_eq_sum_over_visited (md : Int) (t : FSTree) (level : Int)
    (segment : String) :
    (traverse md t level segment).2.1
        = ((visitedDirs md t level).map number_of_directories_in_directory).sum ∧
    (traverse md t level segment).2.2
        = ((visitedDirs md t level).map number_of_files_in_directory).sum := by
  induction t using FSTree.strong_induction generalizing level segment with
  | h t ih =>
    have hwalk := walkChildren_totals md level segment
      (number_of_directories_in_directory t + number_of_files_in_directory t) 0
      (childrenOf t)
      (fun c hm lvl seg => ih c (mem_children_of_mem_childrenOf hm) lvl seg)
    rw [traverse_eq, visitedDirs_eq]
    simp only [List.map_cons, List.sum_cons]
    exact ⟨by rw [hwalk.1], by rw [hwalk.2]⟩

/-- Unfolding of the recursion guard into its four conditions. -/
theorem shouldRecurse_spec {md level : Int} {c : FSTree} :
    shouldRecurse md level c = true ↔
      (c.isDir = true ∧ c.isSymlink = false ∧ c.denied = false ∧ ¬(level = md)) := by
  cases hd : c.isDir <;> cases hs : c.isSymlink <;> cases hdn : c.denied <;>
    simp [shouldRecurse, accessDenied, hd, hs, hdn]

/-- Levels of reachable invocations stay within `[1, max_depth]`. -/
theorem reach_level_bounds {md : Int} {root u : FSTree} {l : Int}
    (hmd : 1 ≤ md) (h : Reaches md root u l) : 1 ≤ l ∧ l ≤ md := by
  induction h with
  | start => exact ⟨le_refl 1, hmd⟩
  | step hr hm hg ih =>
    have hne := (shouldRecurse_spec.mp hg).2.2.2
    omega

/-- Claim C10: every invocation of `traverse` reachable from `main`'s
top-level call satisfies `1 ≤ level ≤ max_depth` (given `max_depth ≥ 1`
after clamping), and under this invariant the code's recursion guard
`level != max_depth` coincides with the strict comparison
`level < max_depth`: the level can never step past the bound. -/
theorem level_invariant {md : Int} {root u : FSTree} {l : Int}
    (hmd : 1 ≤ md) (h : Reaches md root u l) :
    (1 ≤ l ∧ l ≤ md) ∧ ((¬(l = md)) ↔ l < md) := by
  have hb := reach_level_bounds hmd h
  exact ⟨hb, by omega⟩

/-- Witness for C10: the invariant at the root invocation with
`max_depth = 1`. -/
theorem level_invariant_witness :
    ((1:Int) ≤ 1 ∧ (1:Int) ≤ 1) ∧ ((¬((1:Int) = 1)) ↔ (1:Int) < 1) :=
  level_invariant (by decide) (@Reaches.start 1 exRoot)

/-- Claim C2: at any reachable invocation, the recursive call into a child
is made iff the child is a directory, is not a symlink, access was not
denied, and the level is strictly below the depth bound; every reachable
level is at most the bound, and at exactly the bound no child is ever
expanded (directory children there are rendered but stop). -/
theorem recursion_guard_iff {md : Int} {root u : FSTree} {l : Int}
    (hmd : 1 ≤ md) (h : Reaches md root u l) (c : FSTree) :
    (shouldRecurse md l c = true ↔
      (c.isDir = true ∧ c.isSymlink = false ∧ c.denied = false ∧ l < md)) ∧
    l ≤ md ∧
    (l = md → shouldRecurse md l c = false) := by
  have hb := reach_level_bounds hmd h
  refine ⟨?_, hb.2, ?_⟩
  · rw [shouldRecurse_spec]
    constructor
    · rintro ⟨a, b, d, e⟩
      exact ⟨a, b, d, by omega⟩
    · rintro ⟨a, b, d, e⟩
      exact ⟨a, b, d, by omega⟩
  · intro he
    cases hg : shouldRecurse md l c
    · rfl
    · have hne := (shouldRecurse_spec.mp hg).2.2.2
      exact absurd he hne

/-- Witness for C2: the guard at the root invocation with `max_depth = 1`,
applied to a plain file child. -/
theorem recursion_guard_iff_witness :
    (shouldRecurse 1 1 exFile = true ↔
      (exFile.isDir = true ∧ exFile.isSymlink = false ∧ exFile.denied = false ∧
        (1:Int) < 1)) ∧
    (1:Int) ≤ 1 ∧
    ((1:Int) = 1 → shouldRecurse 1 1 exFile = false) :=
  recursion_guard_iff (by decide) (@Reaches.start 1 exRoot) exFile

/-- Claim C5: the guard rejects every symlink child regardless of depth
bound and of whether the target is a directory, so `traverse` is never
called on a symlink: a reachable invocation on a symlink entry can only be
the root itself — symlinks are always leaves of the render tree. -/
theorem symlink_never_recursed :
    (∀ (md l : Int) (c : FSTree), c.isSymlink = true → shouldRecurse md l c = false) ∧
    (∀ (md : Int) (root u : FSTree) (l : Int),
      Reaches md root u l → u.isSymlink = true → u = root) := by
  constructor
  · intro md l c hs
    simp [shouldRecurse, hs]
  · intro md root u l h hs
    cases h with
    | start => rfl
    | step hr hm hg =>
      have hfalse := (shouldRecurse_spec.mp hg).2.1
      simp [hs] at hfalse

/-- Witness for C5: a symlink to a directory is not recursed into even with
a generous depth bound. -/
theorem symlink_never_recursed_witness : shouldRecurse 5 1 exLink = false :=
  symlink_never_recursed.1 5 1 exLink rfl

/-- Among the 1-indexed positions `1..m+1`, exactly one satisfies the
running-counter-equals-total test of tree.cc:114. -/
theorem countP_range_last (m : Nat) :
    (List.range (m + 1)).countP (fun i => (i + 1) == m + 1) = 1 := by
  rw [List.range_succ, List.countP_append]
  have h0 : (List.range m).countP (fun i => (i + 1) == m + 1) = 0 := by
    rw [List.countP_eq_zero]
    intro a ha
    have := List.mem_range.mp ha
    simp
    omega
  rw [h0]
  simp [List.countP_cons]

/-- Claim C4: for a visited directory with at least one enumerated child,
the glyph choice of tree.cc:114 (1-indexed running `entries_count` compared
with directory-children + file-children) gives the terminal glyph to a child
precisely at position `n_directories + n_files`, which is the final child
position — so exactly one child position carries `"└──"`, and it is the
last. -/
theorem terminal_glyph_last (t : FSTree) (hne : childrenOf t ≠ []) :
    ((List.range (childrenOf t).length).countP
      (fun i => leftGlyph (i + 1) (number_of_directories_in_directory t
          + number_of_files_in_directory t) == "└──")) = 1 ∧
    (∀ k, 1 ≤ k → k ≤ (childrenOf t).length →
      (leftGlyph k (number_of_directories_in_directory t
          + number_of_files_in_directory t) = "└──"
        ↔ k = number_of_directories_in_directory t
            + number_of_files_in_directory t)) ∧
    leftGlyph (childrenOf t).length
      (number_of_directories_in_directory t + number_of_files_in_directory t)
      = "└──" ∧
    (∀ k, 1 ≤ k → k < (childrenOf t).length →
      leftGlyph k (number_of_directories_in_directory t
        + number_of_files_in_directory t) = "├──") := by
  have htot : number_of_directories_in_directory t + number_of_files_in_directory t
      = (childrenOf t).length := by
    simpa [number_of_directories_in_directory, number_of_files_in_directory]
      using countP_isDir_partition (childrenOf t)
  rw [htot]
  refine ⟨?_, ?_, ?_, ?_⟩
  · have hlen : (childrenOf t).length ≠ 0 := by
      simpa [List.length_eq_zero] using hne
    obtain ⟨m, hm⟩ := Nat.exists_eq_succ_of_ne_zero hlen
    have hcong : ∀ i ∈ List.range (childrenOf t).length,
        ((leftGlyph (i + 1) ((childrenOf t).length) == "└──") = true)
          ↔ (((i + 1) == (childrenOf t).length) = true) := by
      intro i _
      by_cases h : i + 1 = (childrenOf t).length
      · simp [leftGlyph, h]
      · have hb : ((i + 1) == (childrenOf t).length) = false := by simpa using h
        simp [leftGlyph, hb]
    rw [List.countP_congr hcong, hm]
    exact countP_range_last m
  · intro k _ _
    by_cases h : k = (childrenOf t).length
    · subst h
      simp [leftGlyph]
    · have hb : (k == (childrenOf t).length) = false := by simpa using h
      unfold leftGlyph
      rw [hb]
      exact iff_of_false (by decide) h
  · simp [leftGlyph]
  · intro k _ hk
    have hb : (k == (childrenOf t).length) = false := by
      simp
      omega
    unfold leftGlyph
    rw [hb]
    rfl

/-- Witness for C4: the terminal glyph lands on the last of the two children
of a concrete directory. -/
theorem terminal_glyph_last_witness :
    leftGlyph (childrenOf exRoot).length
      (number_of_directories_in_directory exRoot
        + number_of_files_in_directory exRoot) = "└──" :=
  (terminal_glyph_last exRoot (by simp [childrenOf, exRoot, FSTree.denied,
    FSTree.children])).2.2.1

/-- Counterexample for C3 as stated: run the program on `deniedRoot` with
depth bound 2 (so level 1 is not the final depth level).  The denied child
`exDenied` has exactly one immediate file child, yet the run's file total is
0, not `number_of_files_in_directory deniedRoot + 1 = 1`: the denied
directory's own immediate counts are never computed nor added, because
`traverse` is never invoked on it. -/
theorem denied_child_counts_not_added :
    (traverse 2 deniedRoot 1 "").2.2 = 0 ∧
    exDenied.children.countP (fun c => !c.isDir) = 1 ∧
    ¬((traverse 2 deniedRoot 1 "").2.2
        = number_of_files_in_directory deniedRoot
            + exDenied.children.countP (fun c => !c.isDir)) := by
  refine ⟨rfl, rfl, ?_⟩
  decide

/-- Claim C3 (amended): a directory child whose enumeration fails with a
permission error at the dry-run check is rendered with the bracketed
"access denied" marker when the current level is not the final depth level,
and is never recursed into; the loop emits exactly its one line and nothing
else for it, so neither its descendants nor its own immediate child counts
contribute anything to the running totals (it is counted only as one
directory by its parent's directory-children count). -/
theorem denied_child_rendered_not_recursed (md level : Int) (segment : String)
    (total count : Nat) (c : FSTree) (rest : List FSTree)
    (hdir : c.isDir = true) (hsym : c.isSymlink = false) (hdn : c.denied = true)
    (hlvl : ¬(level = md)) :
    shouldRecurse md level c = false ∧
    renderLine md level segment (leftGlyph (count + 1) total) c
      = segment ++ leftGlyph (count + 1) total ++ " " ++ blueSpan c.name
          ++ " [access denied]\n" ∧
    walkChildren md level segment total count (c :: rest)
      = (renderLine md level segment (leftGlyph (count + 1) total) c
            :: (walkChildren md level segment total (count + 1) rest).1,
         (walkChildren md level segment total (count + 1) rest).2.1,
         (walkChildren md level segment total (count + 1) rest).2.2) := by
  have hbeq : (level == md) = false := by simpa using hlvl
  have hrec : shouldRecurse md level c = false := by
    simp [shouldRecurse, accessDenied, hdir, hdn]
  refine ⟨hrec, ?_, ?_⟩
  · simp [renderLine, hsym, hdir, accessDenied, hdn, hbeq]
  · simp [walkChildren, hrec]

/-- Witness for the amended C3: the denied directory rendered as sole child
of a concrete parent at level 1 with depth bound 2. -/
theorem denied_child_rendered_not_recursed_witness :
    shouldRecurse 2 1 exDenied = false ∧
    renderLine 2 1 "" (leftGlyph 1 1) exDenied
      = "" ++ leftGlyph 1 1 ++ " " ++ blueSpan exDenied.name
          ++ " [access denied]\n" ∧
    walkChildren 2 1 "" 1 0 [exDenied]
      = (renderLine 2 1 "" (leftGlyph 1 1) exDenied
            :: (walkChildren 2 1 "" 1 1 []).1,
         (walkChildren 2 1 "" 1 1 []).2.1,
         (walkChildren 2 1 "" 1 1 []).2.2) :=
  denied_child_rendered_not_recursed 2 1 "" 1 0 exDenied [] rfl rfl rfl (by decide)

/-- `digitsVal` returns the accumulator when the input starts with a
non-digit. -/
theorem digitsVal_no_digit {cs : List Char} (h : ∀ c ∈ cs, c.isDigit = false)
    (acc : Int) : digitsVal cs acc = acc := by
  cases cs with
  | nil => rfl
  | cons c rest =>
    have hc := h c (by simp)
    simp [digitsVal, hc]

/-- Members survive `dropWhile`. -/
theorem mem_of_mem_dropWhile {p : Char → Bool} {l : List Char} {c : Char}
    (h : c ∈ l.dropWhile p) : c ∈ l := by
  induction l with
  | nil => simp at h
  | cons x xs ih =>
    rw [List.dropWhile_cons] at h
    split at h
    · exact List.mem_cons_of_mem _ (ih h)
    · exact h

/-- Claim C7: the effective depth bound is 1 when no second command-line
argument is supplied; when one is supplied it is `atoi` of that argument
with every value below 1 clamped to exactly 1; a string with no digits at
all parses to 0 (hence clamps to 1); and the bound used for traversal is
always at least 1. -/
theorem max_depth_clamped :
    (∀ argv : List String, argv.length < 3 → effectiveMaxDepth argv = 1) ∧
    (∀ (argv : List String) (s : String), argv.get? 2 = some s →
      effectiveMaxDepth argv = if atoi s < 1 then 1 else atoi s) ∧
    (∀ s : String, (∀ c ∈ s.data, c.isDigit = false) → atoi s = 0) ∧
    (∀ argv : List String, 1 ≤ effectiveMaxDepth argv) := by
  refine ⟨?_, ?_, ?_, ?_⟩
  · intro argv h
    unfold effectiveMaxDepth
    rw [if_neg (by omega)]
  · intro argv s hs
    have hlen : 3 ≤ argv.length := by
      obtain ⟨h2, _⟩ := List.get?_eq_some.mp hs
      omega
    have hs2 : argv[2]? = some s := by simpa using hs
    simp [effectiveMaxDepth, hlen, hs2]
  · intro s h
    unfold atoi
    cases hd : s.data.dropWhile isSpaceChar with
    | nil => rfl
    | cons c cs =>
      have hmem : ∀ x ∈ c :: cs, x.isDigit = false := by
        intro x hx
        exact h x (mem_of_mem_dropWhile (hd ▸ hx))
      have hcs : ∀ x ∈ cs, x.isDigit = false :=
        fun x hx => hmem x (List.mem_cons_of_mem _ hx)
      have hc := hmem c (List.mem_cons_self _ _)
      by_cases h1 : c == '-'
      · simp [h1, digitsVal_no_digit hcs]
      · by_cases h2 : c == '+'
        · simp [h1, h2, digitsVal_no_digit hcs]
        · simp [h1, h2, digitsVal, hc, digitsVal_no_digit hcs]
  · intro argv
    unfold effectiveMaxDepth
    split
    · dsimp only
      split <;> omega
    · omega

/-- Witness for C7: a three-entry argument vector with a non-numeric depth
argument, and the default case. -/
theorem max_depth_clamped_witness :
    effectiveMaxDepth ["cxx-tree"] = 1 ∧
    effectiveMaxDepth ["cxx-tree", ".", "abc"]
      = (if atoi "abc" < 1 then 1 else atoi "abc") ∧
    atoi "abc" = 0 ∧
    (1:Int) ≤ effectiveMaxDepth ["cxx-tree", ".", "abc"] :=
  ⟨max_depth_clamped.1 ["cxx-tree"] (by decide),
   max_depth_clamped.2.1 ["cxx-tree", ".", "abc"] "abc" rfl,
   max_depth_clamped.2.2.1 "abc" (by decide),
   max_depth_clamped.2.2.2 ["cxx-tree", ".", "abc"]⟩

/-- Claim C8: the process exits with status 0 on normal completion — for
every observed tree, however many probe failures (denied directories,
broken symlinks) it contains — and with a non-zero status only in the two
fatal startup cases, each writing a message to stderr while stdout is still
empty (so the error precedes any traversal output). -/
theorem exit_status_spec :
    (∀ (argv : List String) (t : FSTree),
      (runMain argv (.isDirectory t)).1 = EXIT_SUCCESS) ∧
    (∀ (argv : List String) (st : RootStatus),
      (runMain argv st).1 ≠ EXIT_SUCCESS →
        (st = .missing ∨ st = .notDirectory) ∧
        (runMain argv st).2.1 = [] ∧ (runMain argv st).2.2 ≠ []) ∧
    (∀ argv : List String,
      (runMain argv .missing).1 = EXIT_FAILURE ∧
      (runMain argv .notDirectory).1 = EXIT_FAILURE ∧ EXIT_FAILURE ≠ 0) := by
  refine ⟨?_, ?_, ?_⟩
  · intro argv t
    rfl
  · intro argv st h
    cases st with
    | missing => exact ⟨Or.inl rfl, rfl, by simp [runMain]⟩
    | notDirectory => exact ⟨Or.inr rfl, rfl, by simp [runMain]⟩
    | isDirectory t => exact absurd rfl h
  · intro argv
    exact ⟨rfl, rfl, by decide⟩

/-- Witness for C8: a successful run on a concrete tree containing a denied
directory, and the two fatal cases. -/
theorem exit_status_spec_witness :
    (runMain ["cxx-tree"] (.isDirectory deniedRoot)).1 = EXIT_SUCCESS ∧
    ((runMain ["cxx-tree"] .missing).2.1 = []
      ∧ (runMain ["cxx-tree"] .missing).2.2 ≠ []) ∧
    (runMain ["cxx-tree"] .missing).1 = EXIT_FAILURE :=
  ⟨exit_status_spec.1 ["cxx-tree"] deniedRoot,
   ⟨(exit_status_spec.2.1 ["cxx-tree"] .missing (by decide)).2.1,
    (exit_status_spec.2.1 ["cxx-tree"] .missing (by decide)).2.2⟩,
   (exit_status_spec.2.2 ["cxx-tree"]).1⟩

/-- Claim C9: the program is deterministic with respect to the observed
filesystem state: the entire output (exit status, stdout bytes, stderr
bytes) is a function of the argument vector and the probed filesystem
subtree alone, so two runs over an unchanged subtree (same listing order)
produce identical output. -/
theorem output_deterministic (argv argv2 : List String) (st st2 : RootStatus)
    (ha : argv = argv2) (hs : st = st2) :
    runMain argv st = runMain argv2 st2 := by
  rw [ha, hs]

/-- Witness for C9: two identical concrete runs agree. -/
theorem output_deterministic_witness :
    runMain ["cxx-tree", "."] (.isDirectory exRoot)
      = runMain ["cxx-tree", "."] (.isDirectory exRoot) :=
  output_deterministic ["cxx-tree", "."] ["cxx-tree", "."]
    (.isDirectory exRoot) (.isDirectory exRoot) rfl rfl

end CxxTree
